import Mathlib

/-!
Verification of `butterfree.core.transform.transformations.stack_transform`
(`StackTransform`): a shallow embedding of the pattern matcher, the column
selector and the explode-based row expansion, together with theorems about
the behaviour of `StackTransform.transform` and `StackTransform._matches_pattern`.

Modelling conventions:
* Python strings are modelled as `List Char`.
* A Spark `DataFrame` is modelled positionally: an ordered list of column
  names plus rows that are lists of cells aligned with the column list.
* `transform` raises `ValueError` when no column matches; this is modelled
  with `Except (List Char)`, the error payload being the message string.
* Python's `re.match(pattern, column)` — match anchored at position 0, not
  required to cover the whole string — is modelled by `reMatch`: some prefix
  of the column belongs to the language of the compiled regular expression.
  Compilation of a regex source string is external to the fragment (it is
  performed by the `re` library), so it is passed in as an opaque-to-the-code
  function `compile : List Char → RegularExpression Char`.
-/

/-- Cells of a column name, i.e. a Python string. -/
abbrev ColName := List Char

/-- Embedding of the `StackTransform` construction-time state: the constructor
`__init__(self, *columns_names, is_regex=False)` stores exactly these two
fields and performs no validation (it is total, hence infallible; in
particular an empty pattern list is accepted). -/
structure StackTransform where
  columns_names : List ColName
  regex_enabled : Bool

/-- Python `pattern.split("*")`: split a string on every occurrence of the
`*` character.  Like Python's `str.split`, the result is always nonempty
(splitting the empty string gives `[[]]`). -/
def splitOnStar : List Char → List (List Char)
  | [] => [[]]
  | c :: cs =>
    match splitOnStar cs with
    | [] => [[]]
    | s :: ss => if c = '*' then [] :: s :: ss else (c :: s) :: ss

/-- The non-regex branch of `StackTransform._matches_pattern` (lines 97-103):
strip an optional leading `!` (setting `negate`), split the remainder on `*`,
test that the column starts with the first segment and ends with the last
segment, and negate the result when `negate` is set.  `split[0]` and
`split[-1]` are rendered with `headD`/`getLastD`; since `splitOnStar` never
returns `[]` (see `splitOnStar_ne_nil`) these agree with Python's indexing. -/
def matchesSimple (pattern column : List Char) : Bool :=
  let negate := pattern.head? == some '!'
  let p := if negate then pattern.tail else pattern
  let parts := splitOnStar p
  let m := List.isPrefixOf (parts.headD []) column &&
    List.isSuffixOf (parts.getLastD []) column
  if negate then !m else m

/-- Model of Python `bool(re.match(r, s))`: true iff the regular expression
matches at position 0, i.e. some prefix of `s` is in the language of `r`
(executable via Mathlib's derivative matcher `rmatch`). -/
def reMatch (r : RegularExpression Char) (s : List Char) : Bool :=
  s.inits.any fun p => r.rmatch p

/-- Embedding of `StackTransform._matches_pattern` (lines 94-103): in regex
mode the pattern string is compiled by the external `re` library (`compile`)
and matched anchored at position 0; otherwise the simplified wildcard
matcher `matchesSimple` is used. -/
def StackTransform.matchesPattern (compile : List Char → RegularExpression Char)
    (t : StackTransform) (pattern column : List Char) : Bool :=
  if t.regex_enabled then reMatch (compile pattern) column
  else matchesSimple pattern column

/-- The column-selection comprehension of `StackTransform.transform`
(lines 115-121): keep, in the order of the dataframe's column list, the
columns matching at least one of the instance's patterns. -/
def StackTransform.selectColumns (compile : List Char → RegularExpression Char)
    (t : StackTransform) (allColumns : List ColName) : List ColName :=
  allColumns.filter fun column =>
    t.columns_names.any fun pattern =>
      StackTransform.matchesPattern compile t pattern column

/-- A dataframe: ordered column names and positional rows. -/
structure DataFrame (α : Type) where
  columns : List ColName
  rows : List (List α)

/-- A dataframe is rectangular: every row has one cell per column.  Real
Spark dataframes satisfy this by construction. -/
def DataFrame.wellFormed {α : Type} (df : DataFrame α) : Prop :=
  ∀ r ∈ df.rows, r.length = df.columns.length

instance {α : Type} [DecidableEq α] (df : DataFrame α) :
    Decidable df.wellFormed := by
  unfold DataFrame.wellFormed; infer_instance

/-- The value of the column named `c` in a row aligned with `columns`
(first occurrence wins, as in Spark name resolution); `none` when the name
is absent or the row is too short. -/
def colValue {α : Type} : List ColName → List α → ColName → Option α
  | col :: cols, v :: vs, c => if col = c then some v else colValue cols vs c
  | _, _, _ => none

/-- The Spark expression `array(*columns)` evaluated on one row: the values
of the selected columns, in selected-column order. -/
def arrayValues {α : Type} (columns selected : List ColName) (row : List α) :
    List α :=
  selected.filterMap (colValue columns row)

/-- The Spark pipeline `dataframe.withColumn(name, explode(array(*selected)))`:
append one new column named `name`; each original row is replaced by one
output row per element of its array, the other cells duplicated verbatim. -/
def explodeWithColumn {α : Type} (df : DataFrame α) (name : ColName)
    (selected : List ColName) : DataFrame α :=
  { columns := df.columns ++ [name]
    rows := df.rows.flatMap fun row =>
      (arrayValues df.columns selected row).map fun v => row ++ [v] }

/-- Rendering of a Python list of strings, as interpolated by
`"...".format(dataframe.columns)`: comma-separated quoted names. -/
def formatNameList : List ColName → List Char
  | [] => []
  | [c] => '\'' :: c ++ ['\'']
  | c :: cs => '\'' :: c ++ ['\'', ',', ' '] ++ formatNameList cs

/-- The `ValueError` message of `StackTransform.transform` (line 125):
`"Columns not found, columns in df: "` followed by the rendered column list. -/
def noMatchMessage (columns : List ColName) : List Char :=
  "Columns not found, columns in df: [".toList ++ formatNameList columns ++ [']']

/-- Embedding of `StackTransform.transform` (lines 105-128): select the
matching columns, raise `ValueError` listing the dataframe's columns when
none matched, otherwise append the exploded column named after the parent
feature (`parentName` stands for `self._parent.name`; the name is assumed
fresh, as in every documented use). -/
def StackTransform.transform {α : Type}
    (compile : List Char → RegularExpression Char) (t : StackTransform)
    (parentName : ColName) (df : DataFrame α) :
    Except (List Char) (DataFrame α) :=
  let columns := StackTransform.selectColumns compile t df.columns
  if columns.isEmpty then
    Except.error (noMatchMessage df.columns)
  else
    Except.ok (explodeWithColumn df parentName columns)

/-- The compiled form of the spec's example regex `"^id_"`: under `re.match`
the leading `^` anchor is redundant (matching is anchored at position 0
anyway), so it denotes the literal character sequence `i`, `d`, `_`. -/
def idAnchorRegex : RegularExpression Char :=
  RegularExpression.char 'i' * RegularExpression.char 'd' * RegularExpression.char '_'

/-- The transform of the documented example:
`StackTransform("id_a", "id_b")`. -/
def exampleTransform : StackTransform :=
  ⟨["id_a".toList, "id_b".toList], false⟩

/-- A second instance with the same patterns in the opposite order. -/
def exampleTransformRev : StackTransform :=
  ⟨["id_b".toList, "id_a".toList], false⟩

/-- A trivial regex compiler; irrelevant for non-regex instances. -/
def exampleCompile : List Char → RegularExpression Char := fun _ => 0

/-- The bound feature name of the documented example: `"stack_ids"`. -/
def exampleName : ColName := "stack_ids".toList

/-- The documented example dataframe: columns `feature`, `id_a`, `id_b` and
rows `(100, 1, 2)` and `(120, 3, 4)`. -/
def exampleDf : DataFrame Nat :=
  ⟨["feature".toList, "id_a".toList, "id_b".toList], [[100, 1, 2], [120, 3, 4]]⟩

theorem splitOnStar_ne_nil (l : List Char) : splitOnStar l ≠ [] := by
  cases l with
  | nil => simp [splitOnStar]
  | cons c cs =>
    unfold splitOnStar
    cases h : splitOnStar cs with
    | nil => simp
    | cons s ss =>
      by_cases hc : c = '*' <;> simp [hc]

theorem splitOnStar_no_star (l : List Char) (h : '*' ∉ l) : splitOnStar l = [l] := by
  induction l with
  | nil => simp [splitOnStar]
  | cons c cs ih =>
    simp only [List.mem_cons, not_or] at h
    unfold splitOnStar
    rw [ih h.2]
    simp [Ne.symm h.1]

/-- C8: in simplified mode the pattern `"*"` matches every column name, and
so does the empty pattern `""` (both of its segments are empty). -/
theorem stack_star_and_empty_match_all (column : List Char) :
    matchesSimple ['*'] column = true ∧ matchesSimple [] column = true := by
  constructor <;> simp [matchesSimple, splitOnStar, List.isSuffixOf, List.isPrefixOf]

/-- C3 counterexample: the pattern `"a"` (no `*`, no leading `!`) matches the
column `"aa"`, although the two strings are different — the simplified
matcher tests start-with and end-with, not equality. -/
theorem stack_exact_match_counterexample :
    matchesSimple "a".toList "aa".toList = true ∧ "a".toList ≠ "aa".toList := by
  decide

/-- C3 amended: in simplified mode, for a pattern `P` containing no `*` and
no leading `!`, the matcher returns true iff the column starts with `P` and
ends with `P` (equality of `P` and `C` is sufficient but not necessary). -/
theorem stack_no_wildcard_iff (P C : List Char) (hstar : '*' ∉ P)
    (hneg : P.head? ≠ some '!') :
    matchesSimple P C = true ↔ (P <+: C ∧ P <:+ C) := by
  have h' : (P.head? == some '!') = false := by simpa using hneg
  simp [matchesSimple, h', splitOnStar_no_star P hstar,
    List.isPrefixOf_iff_prefix, List.isSuffixOf_iff_suffix]

/-- C3 amended, witnessed at `P = C = "id_a"`. -/
theorem stack_no_wildcard_iff_witness :
    ('*' ∉ "id_a".toList) ∧ ("id_a".toList.head? ≠ some '!') ∧
      matchesSimple "id_a".toList "id_a".toList = true :=
  ⟨by decide, by decide,
    (stack_no_wildcard_iff "id_a".toList "id_a".toList (by decide)
      (by decide)).mpr ⟨List.prefix_refl _, List.suffix_refl _⟩⟩

/-- C6 counterexample: a leading `!` is stripped only once, so for
`Q = "!"` the matcher on `"!" ++ Q` is not the negation of the matcher on
`Q`: on column `"!"` both sides of the claimed equation evaluate to
`false` and `true` respectively. -/
theorem stack_negation_counterexample :
    ¬ (matchesSimple ('!' :: "!".toList) "!".toList
        = !matchesSimple "!".toList "!".toList) := by
  decide

/-- C6 amended: in simplified mode, for every pattern `Q` that does not
itself start with `!`, prepending `!` exactly negates the match result. -/
theorem stack_negation_iff (Q C : List Char) (hneg : Q.head? ≠ some '!') :
    matchesSimple ('!' :: Q) C = !matchesSimple Q C := by
  have h' : (Q.head? == some '!') = false := by simpa using hneg
  simp [matchesSimple, h']

/-- C6 amended, witnessed at `Q = "foo"`, `C = "foo"`. -/
theorem stack_negation_iff_witness :
    ("foo".toList.head? ≠ some '!') ∧
      matchesSimple ('!' :: "foo".toList) "foo".toList
        = !matchesSimple "foo".toList "foo".toList :=
  ⟨by decide, stack_negation_iff "foo".toList "foo".toList (by decide)⟩

/-- C7 counterexample: for the multi-wildcard pattern `"!a*b*c"` and the
column `"x"`, the matcher returns true although `"x"` starts with the
segment before the first `*` under neither reading of "segment" (of the raw
pattern, `"!a"`, nor of the pattern with the `!` stripped, `"a"`): the
claimed iff ignores the negation marker. -/
theorem stack_multi_wildcard_counterexample :
    matchesSimple "!a*b*c".toList "x".toList = true ∧
    List.isPrefixOf ((splitOnStar "!a*b*c".toList).headD []) "x".toList = false ∧
    List.isPrefixOf ((splitOnStar "a*b*c".toList).headD []) "x".toList = false := by
  decide

/-- C7 amended: in simplified mode, for every pattern with two or more `*`
and no leading `!`, the matcher returns true iff the column starts with the
segment before the first `*` and ends with the segment after the last `*`;
middle segments have no effect. -/
theorem stack_multi_wildcard_iff (P C : List Char)
    (hneg : P.head? ≠ some '!') (hcount : 2 ≤ P.count '*') :
    matchesSimple P C = true ↔
      ((splitOnStar P).headD [] <+: C ∧ (splitOnStar P).getLastD [] <:+ C) := by
  have h' : (P.head? == some '!') = false := by simpa using hneg
  simp [matchesSimple, h', List.isPrefixOf_iff_prefix, List.isSuffixOf_iff_suffix]

/-- C7 amended, witnessed at `P = "a*b*c"`, `C = "ac"` (the middle segment
`"b"` does not occur in `C`, yet the pattern matches). -/
theorem stack_multi_wildcard_iff_witness :
    ("a*b*c".toList.head? ≠ some '!') ∧ 2 ≤ "a*b*c".toList.count '*' ∧
      matchesSimple "a*b*c".toList "ac".toList = true :=
  ⟨by decide, by decide,
    (stack_multi_wildcard_iff "a*b*c".toList "ac".toList (by decide)
      (by decide)).mpr ⟨⟨['c'], by decide⟩, ⟨['a'], by decide⟩⟩⟩

/-- C10: construction stores an empty pattern list without validation, and
`transform` of an instance with zero patterns raises the no-columns-matched
error on every input dataframe. -/
theorem stack_empty_patterns_error {α : Type} (rex : Bool)
    (compile : List Char → RegularExpression Char) (name : ColName)
    (df : DataFrame α) :
    StackTransform.transform compile ⟨[], rex⟩ name df
      = Except.error (noMatchMessage df.columns) := by
  simp [StackTransform.transform, StackTransform.selectColumns]

theorem reMatch_iff (r : RegularExpression Char) (s : List Char) :
    reMatch r s = true ↔ ∃ p, p <+: s ∧ p ∈ r.matches' := by
  simp [reMatch, List.any_eq_true, List.mem_inits,
    RegularExpression.rmatch_iff_matches']

/-- C5: with the regex flag enabled, `_matches_pattern` returns true iff the
compiled pattern matches a prefix of the column, anchored at position 0 (it
need not cover the whole string and is not tried at later positions); in
particular the compiled form of `"^id_"` matches `"id_a"` and `"id_b"` but
not `"feature_id"`. -/
theorem stack_regex_mode_semantics :
    (∀ (compile : List Char → RegularExpression Char) (t : StackTransform)
        (pat col : List Char), t.regex_enabled = true →
      (StackTransform.matchesPattern compile t pat col = true ↔
        ∃ p, p <+: col ∧ p ∈ (compile pat).matches')) ∧
    reMatch idAnchorRegex "id_a".toList = true ∧
    reMatch idAnchorRegex "id_b".toList = true ∧
    reMatch idAnchorRegex "feature_id".toList = false := by
  refine ⟨fun compile t pat col h => ?_, by decide, by decide, by decide⟩
  rw [StackTransform.matchesPattern, h]
  simp only [if_true]
  exact reMatch_iff (compile pat) col

/-- C5, witnessed: a regex-mode instance on column `"id_a"` with the
compiled pattern `idAnchorRegex`, whose prefix `"id_"` is in the language. -/
theorem stack_regex_mode_semantics_witness :
    (⟨[], true⟩ : StackTransform).regex_enabled = true ∧
      StackTransform.matchesPattern (fun _ => idAnchorRegex) ⟨[], true⟩ []
        "id_a".toList = true :=
  ⟨rfl,
    (stack_regex_mode_semantics.1 (fun _ => idAnchorRegex) ⟨[], true⟩ []
        "id_a".toList rfl).mpr
      ⟨"id_".toList, ⟨['a'], by decide⟩,
        (RegularExpression.rmatch_iff_matches' _ _).mp (by decide)⟩⟩

/-- C9: `transform` is a pure function of the construction-time fields, the
bound output name and the input dataframe: two instances with equal fields
produce identical results on the same input (the embedding is functional, so
a call can mutate neither the instance nor the input dataframe, and repeated
calls trivially agree). -/
theorem stack_transform_deterministic {α : Type}
    (compile : List Char → RegularExpression Char) (t₁ t₂ : StackTransform)
    (name : ColName) (df : DataFrame α)
    (hp : t₁.columns_names = t₂.columns_names)
    (hr : t₁.regex_enabled = t₂.regex_enabled) :
    StackTransform.transform compile t₁ name df
      = StackTransform.transform compile t₂ name df := by
  cases t₁
  cases t₂
  simp only at hp hr
  rw [hp, hr]

/-- C9, witnessed on the documented example. -/
theorem stack_transform_deterministic_witness :
    StackTransform.transform exampleCompile exampleTransform exampleName exampleDf
      = StackTransform.transform exampleCompile exampleTransform exampleName
          exampleDf :=
  stack_transform_deterministic exampleCompile exampleTransform exampleTransform
    exampleName exampleDf rfl rfl

theorem list_any_perm_congr {α : Type} {l₁ l₂ : List α} (h : l₁.Perm l₂)
    (f : α → Bool) : l₁.any f = l₂.any f := by
  induction h with
  | nil => rfl
  | cons x _ ih => simp [ih]
  | swap x y l => simp [Bool.or_left_comm]
  | trans _ _ ih₁ ih₂ => rw [ih₁, ih₂]

/-- C4: the selected columns are exactly the columns of the table matching at
least one pattern; they form a subsequence of the table's column list (hence
appear in original column order), and the selection is invariant under
permutation of the pattern set. -/
theorem stack_select_columns_spec
    (compile : List Char → RegularExpression Char) (t t' : StackTransform)
    (allColumns : List ColName) :
    (∀ c, c ∈ StackTransform.selectColumns compile t allColumns ↔
      c ∈ allColumns ∧ ∃ p ∈ t.columns_names,
        StackTransform.matchesPattern compile t p c = true) ∧
    (StackTransform.selectColumns compile t allColumns).Sublist allColumns ∧
    (t'.regex_enabled = t.regex_enabled →
      t'.columns_names.Perm t.columns_names →
      StackTransform.selectColumns compile t' allColumns
        = StackTransform.selectColumns compile t allColumns) := by
  refine ⟨fun c => ?_, List.filter_sublist _, fun hr hp => ?_⟩
  · simp [StackTransform.selectColumns, List.mem_filter, List.any_eq_true]
  · unfold StackTransform.selectColumns StackTransform.matchesPattern
    simp only [hr]
    exact List.filter_congr fun c _ => list_any_perm_congr hp _

/-- C4, witnessed: on the documented example, `id_a` is selected, and
reversing the pattern order leaves the selection unchanged. -/
theorem stack_select_columns_spec_witness :
    ("id_a".toList ∈ StackTransform.selectColumns exampleCompile
      exampleTransform exampleDf.columns) ∧
    StackTransform.selectColumns exampleCompile exampleTransformRev
        exampleDf.columns
      = StackTransform.selectColumns exampleCompile exampleTransform
          exampleDf.columns :=
  ⟨((stack_select_columns_spec exampleCompile exampleTransform
      exampleTransformRev exampleDf.columns).1 _).mpr
      ⟨by decide, "id_a".toList, by decide, by decide⟩,
    (stack_select_columns_spec exampleCompile exampleTransform
      exampleTransformRev exampleDf.columns).2.2 rfl
      (List.Perm.swap "id_a".toList "id_b".toList [])⟩

theorem selectColumns_eq_nil_iff
    (compile : List Char → RegularExpression Char) (t : StackTransform)
    (allColumns : List ColName) :
    StackTransform.selectColumns compile t allColumns = [] ↔
      ∀ c ∈ allColumns, ∀ p ∈ t.columns_names,
        StackTransform.matchesPattern compile t p c = false := by
  simp [StackTransform.selectColumns, List.filter_eq_nil_iff, List.any_eq_true]

theorem mem_infix_formatNameList {c : ColName} :
    ∀ {cols : List ColName}, c ∈ cols → c <:+: formatNameList cols := by
  intro cols
  induction cols with
  | nil => intro h; cases h
  | cons c₀ cs ih =>
    intro h
    cases cs with
    | nil =>
      have hc : c = c₀ := by simpa using h
      subst hc
      exact ⟨['\''], ['\''], rfl⟩
    | cons c₁ cs' =>
      rcases List.mem_cons.mp h with hc | hc
      · subst hc
        exact ⟨['\''], ['\'', ',', ' '] ++ formatNameList (c₁ :: cs'), by
          simp [formatNameList]⟩
      · refine (ih hc).trans ⟨'\'' :: c₀ ++ ['\'', ',', ' '], [], by
          simp [formatNameList]⟩

theorem mem_infix_noMatchMessage {c : ColName} {cols : List ColName}
    (h : c ∈ cols) : c <:+: noMatchMessage cols := by
  refine (mem_infix_formatNameList h).trans ?_
  exact ⟨"Columns not found, columns in df: [".toList, [']'], rfl⟩

/-- C2: `transform` raises the `ValueError` exactly when no column of the
dataframe matches any of the instance's patterns; the error message renders
the full list of the dataframe's column names (each column name occurs
verbatim inside the message), and on error only the message is produced —
no output dataframe exists and, the embedding being functional, the input
dataframe is untouched. -/
theorem stack_transform_error_characterisation {α : Type}
    (compile : List Char → RegularExpression Char) (t : StackTransform)
    (name : ColName) (df : DataFrame α) :
    (StackTransform.transform compile t name df
        = Except.error (noMatchMessage df.columns)
      ↔ ∀ c ∈ df.columns, ∀ p ∈ t.columns_names,
          StackTransform.matchesPattern compile t p c = false) ∧
    (∀ msg, StackTransform.transform compile t name df = Except.error msg →
      ∀ c ∈ df.columns, c <:+: msg) := by
  constructor
  · constructor
    · intro h
      rw [← selectColumns_eq_nil_iff compile t df.columns]
      by_contra hne
      have hf : (StackTransform.selectColumns compile t df.columns).isEmpty
          = false := List.isEmpty_eq_false.mpr hne
      rw [StackTransform.transform] at h
      simp only [hf, Bool.false_eq_true, if_false] at h
      cases h
    · intro h
      have hnil : StackTransform.selectColumns compile t df.columns = [] :=
        (selectColumns_eq_nil_iff compile t df.columns).mpr h
      simp [StackTransform.transform, hnil]
  · intro msg hmsg c hc
    rw [StackTransform.transform] at hmsg
    by_cases he : (StackTransform.selectColumns compile t df.columns).isEmpty
    · simp only [he, if_true] at hmsg
      cases hmsg
      exact mem_infix_noMatchMessage hc
    · simp only [he, Bool.false_eq_true, if_false] at hmsg
      cases hmsg

/-- C2, witnessed: with the pattern list `["zzz"]` no column of the example
dataframe matches, the call errors, and each column name, e.g. `"feature"`,
occurs inside the message. -/
theorem stack_transform_error_characterisation_witness :
    StackTransform.transform exampleCompile ⟨["zzz".toList], false⟩ exampleName
        exampleDf = Except.error (noMatchMessage exampleDf.columns) ∧
    "feature".toList <:+: noMatchMessage exampleDf.columns :=
  ⟨(stack_transform_error_characterisation exampleCompile ⟨["zzz".toList], false⟩
      exampleName exampleDf).1.mpr (by decide),
    (stack_transform_error_characterisation exampleCompile
      ⟨["zzz".toList], false⟩ exampleName exampleDf).2
      (noMatchMessage exampleDf.columns)
      ((stack_transform_error_characterisation exampleCompile
        ⟨["zzz".toList], false⟩ exampleName exampleDf).1.mpr (by decide))
      "feature".toList (by decide)⟩

theorem colValue_isSome {α : Type} :
    ∀ (columns : List ColName) (row : List α) (c : ColName),
      c ∈ columns → row.length = columns.length →
      ∃ v, colValue columns row c = some v := by
  intro columns
  induction columns with
  | nil => intro row c hmem; cases hmem
  | cons col cols ih =>
    intro row c hmem hlen
    cases row with
    | nil => simp at hlen
    | cons v vs =>
      by_cases h : col = c
      · exact ⟨v, by simp [colValue, h]⟩
      · have hmem' : c ∈ cols := by
          rcases List.mem_cons.mp hmem with hc | hc
          · exact absurd hc.symm h
          · exact hc
        obtain ⟨w, hw⟩ := ih vs c hmem' (by simpa using hlen)
        exact ⟨w, by simp [colValue, h, hw]⟩

theorem filterMap_all_some {α β : Type} (f : α → Option β) :
    ∀ l : List α, (∀ x ∈ l, ∃ v, f x = some v) →
      (l.filterMap f).length = l.length ∧
      ∀ k (hk : k < l.length), (l.filterMap f)[k]? = f (l.get ⟨k, hk⟩) := by
  intro l
  induction l with
  | nil => intro _; exact ⟨rfl, fun k hk => by simp at hk⟩
  | cons x xs ih =>
    intro h
    obtain ⟨v, hv⟩ := h x (by simp)
    have ihh := ih fun y hy => h y (by simp [hy])
    constructor
    · simp only [List.filterMap_cons, hv, List.length_cons, ihh.1]
    · intro k hk
      cases k with
      | zero => simp [List.filterMap_cons, hv]
      | succ k' =>
        have hk' : k' < xs.length := by simpa using hk
        simp only [List.filterMap_cons, hv, List.getElem?_cons_succ,
          List.get_cons_succ]
        exact ihh.2 k' hk'

theorem flatMap_length_const {α β : Type} (g : α → List β) (n : ℕ) :
    ∀ l : List α, (∀ r ∈ l, (g r).length = n) →
      (l.flatMap g).length = l.length * n := by
  intro l
  induction l with
  | nil => intro _; simp
  | cons x xs ih =>
    intro h
    rw [List.flatMap_cons, List.length_append, h x (by simp),
      ih fun r hr => h r (by simp [hr])]
    simp only [List.length_cons]
    ring

theorem flatMap_getElem_const {α β : Type} (g : α → List β) (n : ℕ) :
    ∀ (l : List α) (i k : ℕ) (hi : i < l.length), k < n →
      (∀ r ∈ l, (g r).length = n) →
      (l.flatMap g)[i * n + k]? = (g (l.get ⟨i, hi⟩))[k]? := by
  intro l
  induction l with
  | nil => intro i k hi; simp at hi
  | cons x xs ih =>
    intro i k hi hk h
    have hx : (g x).length = n := h x (by simp)
    cases i with
    | zero =>
      rw [List.flatMap_cons,
        List.getElem?_append_left (show 0 * n + k < (g x).length by
          rw [hx]; omega)]
      simp
    | succ i' =>
      rw [List.flatMap_cons]
      have hidx : (i' + 1) * n + k = (g x).length + (i' * n + k) := by
        rw [hx]; ring
      rw [hidx, List.getElem?_append_right (by omega),
        Nat.add_sub_cancel_left]
      have hi' : i' < xs.length := by simpa using hi
      rw [ih i' k hi' hk fun r hr => h r (by simp [hr])]
      rw [List.get_cons_succ]

/-- C1: when at least one column matches, `transform` succeeds and returns
the input dataframe extended with one new column named after the bound
feature; writing `n` for the number of selected columns, each original row
`i` is replaced by `n` consecutive output rows, the `k`-th of which carries
the value of the `k`-th selected column (in selected-column order) in the
new column, with all original cells duplicated verbatim. -/
theorem stack_transform_expansion {α : Type}
    (compile : List Char → RegularExpression Char) (t : StackTransform)
    (name : ColName) (df : DataFrame α) (hwf : df.wellFormed)
    (sel : List ColName)
    (hselEq : sel = StackTransform.selectColumns compile t df.columns)
    (hsel : sel ≠ []) :
    StackTransform.transform compile t name df
      = Except.ok (explodeWithColumn df name sel) ∧
    (explodeWithColumn df name sel).columns = df.columns ++ [name] ∧
    (explodeWithColumn df name sel).rows.length
      = df.rows.length * sel.length ∧
    ∀ i k (hi : i < df.rows.length) (hk : k < sel.length),
      ∃ v, colValue df.columns (df.rows.get ⟨i, hi⟩) (sel.get ⟨k, hk⟩)
            = some v ∧
        (explodeWithColumn df name sel).rows[i * sel.length + k]?
          = some (df.rows.get ⟨i, hi⟩ ++ [v]) := by
  have hsub : ∀ c ∈ sel, c ∈ df.columns := by
    intro c hc
    rw [hselEq] at hc
    exact List.mem_of_mem_filter hc
  have hallrow : ∀ r ∈ df.rows, ∀ c ∈ sel,
      ∃ v, colValue df.columns r c = some v := by
    intro r hr c hc
    exact colValue_isSome df.columns r c (hsub c hc) (hwf r hr)
  have hglen : ∀ r ∈ df.rows,
      ((arrayValues df.columns sel r).map fun v => r ++ [v]).length
        = sel.length := by
    intro r hr
    rw [List.length_map]
    exact (filterMap_all_some (colValue df.columns r) sel (hallrow r hr)).1
  refine ⟨?_, rfl, ?_, ?_⟩
  · rw [StackTransform.transform]
    have hne : (StackTransform.selectColumns compile t df.columns).isEmpty
        = false := List.isEmpty_eq_false.mpr (hselEq ▸ hsel)
    simp only [hne, Bool.false_eq_true, if_false]
    rw [← hselEq]
  · exact flatMap_length_const _ sel.length df.rows hglen
  · intro i k hi hk
    have hrmem : df.rows.get ⟨i, hi⟩ ∈ df.rows := List.get_mem df.rows i hi
    obtain ⟨v, hv⟩ :=
      hallrow _ hrmem (sel.get ⟨k, hk⟩) (List.get_mem sel k hk)
    refine ⟨v, hv, ?_⟩
    show (df.rows.flatMap _)[i * sel.length + k]? = _
    rw [flatMap_getElem_const _ sel.length df.rows i k hi hk hglen,
      List.getElem?_map]
    have harr := (filterMap_all_some (colValue df.columns (df.rows.get ⟨i, hi⟩))
      sel (hallrow _ hrmem)).2 k hk
    rw [show arrayValues df.columns sel (df.rows.get ⟨i, hi⟩)
        = sel.filterMap (colValue df.columns (df.rows.get ⟨i, hi⟩)) from rfl,
      harr, hv]
    rfl

/-- C1, witnessed on the documented example: the two rows of `exampleDf`
expand to the four rows `(100,1,2,1)`, `(100,1,2,2)`, `(120,3,4,3)`,
`(120,3,4,4)` under the new column `stack_ids`. -/
theorem stack_transform_expansion_witness :
    exampleDf.wellFormed ∧
    (StackTransform.selectColumns exampleCompile exampleTransform
        exampleDf.columns ≠ []) ∧
    StackTransform.transform exampleCompile exampleTransform exampleName
        exampleDf
      = Except.ok (explodeWithColumn exampleDf exampleName
          (StackTransform.selectColumns exampleCompile exampleTransform
            exampleDf.columns)) ∧
    (explodeWithColumn exampleDf exampleName
        (StackTransform.selectColumns exampleCompile exampleTransform
          exampleDf.columns)).rows
      = [[100, 1, 2, 1], [100, 1, 2, 2], [120, 3, 4, 3], [120, 3, 4, 4]] :=
  ⟨by decide, by decide,
    (stack_transform_expansion exampleCompile exampleTransform exampleName
      exampleDf (by decide) _ rfl (by decide)).1,
    by decide⟩
